import Mathlib

/-!
Verification of the match-synchronization engine of the HaloTrackerBot
repository (`utils/scraper.py`, `utils/match_cache.py`, `cogs/halo_watcher.py`).

Modelling conventions:
* Timestamps are modelled as `Int` instants (seconds).  The source stores
  ISO-8601 strings and compares them either lexicographically
  (`get_new_matches`) or after `datetime.fromisoformat` parsing
  (`get_recent_match_data`); for the fixed remote timestamp format both
  orders coincide with the chronological order modelled here.
* SQLite tables are modelled as lists of row structures; `INSERT OR
  REPLACE` becomes replace-in-place-by-key-or-append, which realises the
  same row set as SQLite's delete-then-insert.
* Real-valued columns (CSR, MMR, expected kills/deaths) are modelled as
  `Int`: no claim performs arithmetic on them, only storage and equality.
* Remote HTTP calls are modelled by outcome values: `halo_request`
  returns the parsed JSON, returns `None` (network error / non-401 HTTP
  error), or raises `InvalidTokenError` (HTTP 401).
-/

namespace HaloBot

/-- One entry of the remote match list (`Results[i]` of the list endpoint):
`MatchId`, `MatchInfo.StartTime` and the further `MatchInfo` fields that
`_save_match_info` persists, plus the asset references used by
`_process_new_match`. -/
structure RemoteMatch where
  matchId : String
  startTime : Int
  endTime : String
  duration : String
  outcome : Option Int
  rank : Option Int
  playlistId : String
  mapAssetId : String
  mapVersionId : String
  ugcAssetId : String
  ugcVersionId : String
  teamsEnabled : Option Bool
  teamScoring : Option Bool
deriving DecidableEq

/-- The validated stats payload `stats["Value"][0]["Result"]` that
`get_match_stats` returns (it checks `Value[0].Result.RankRecap` exists). -/
structure StatsValue where
  preCsr : Option Int
  postCsr : Option Int
  kills : Option Int
  deaths : Option Int
  killsExpected : Option Int
  deathsExpected : Option Int
  teamMmr : Option Int
  teamMmrs : List (String × Int)
deriving DecidableEq

/-- A row of the `matches` table. -/
structure MatchRow where
  matchId : String
  startTime : Int
  endTime : String
  duration : String
  outcome : Option Int
  rank : Option Int
  playlistId : String
  mapVariant : String
  mapVersion : String
  ugcVariant : String
  teamsEnabled : Option Bool
  teamScoring : Option Bool
deriving DecidableEq

/-- A row of the `stats` table. -/
structure StatsRow where
  matchId : String
  preCsr : Option Int
  postCsr : Option Int
  kills : Option Int
  deaths : Option Int
  killsExpected : Option Int
  deathsExpected : Option Int
  teamMmr : Option Int
deriving DecidableEq

/-- A row of the `team_mmrs` table. -/
structure TeamRow where
  matchId : String
  teamId : String
  mmr : Int
deriving DecidableEq

/-- A row of the `maps` or `Modes` table. -/
structure AssetRow where
  assetId : String
  versionId : String
  publicName : Option String
  description : Option String
deriving DecidableEq

/-- The two asset tables used by `_get_or_fetch_asset_data` ("maps" and
"Modes"). -/
inductive AssetTable where
  | maps
  | modes
deriving DecidableEq

/-- Payload of a successful `fetch_ugc_asset` call (`PublicName`,
`Description`); a failed call returns the empty dict, modelled as `none`. -/
structure AssetData where
  publicName : Option String
  description : Option String
deriving DecidableEq

/-- The SQLite database `matches_cache.db`. -/
structure Store where
  matchesTable : List MatchRow  -- the `matches` table (`matches` is a Lean keyword)
  stats : List StatsRow
  team_mmrs : List TeamRow
  maps : List AssetRow
  modes : List AssetRow
deriving DecidableEq

/-- `init_db`: all tables exist and are empty. -/
def init_db : Store := ⟨[], [], [], [], []⟩

/-- SQLite `INSERT OR REPLACE` keyed by `key`: replace the existing row
with the same key in place, otherwise append. -/
def upsertBy {κ : Type} [DecidableEq κ] (key : α → κ) (row : α) : List α → List α
  | [] => [row]
  | r :: rs => if key r = key row then row :: rs else r :: upsertBy key row rs

/-- The `matches` row written by `_save_match_info`. -/
def rowOfMatch (m : RemoteMatch) : MatchRow :=
  ⟨m.matchId, m.startTime, m.endTime, m.duration, m.outcome, m.rank,
   m.playlistId, m.mapAssetId, m.mapVersionId, m.ugcAssetId,
   m.teamsEnabled, m.teamScoring⟩

/-- The `stats` row written by `_save_stats`. -/
def statsRowOf (matchId : String) (st : StatsValue) : StatsRow :=
  ⟨matchId, st.preCsr, st.postCsr, st.kills, st.deaths,
   st.killsExpected, st.deathsExpected, st.teamMmr⟩

/-- The `team_mmrs` rows inserted by `_save_team_mmrs` for one match. -/
def teamRowsOf (matchId : String) (st : StatsValue) : List TeamRow :=
  st.teamMmrs.map (fun p => ⟨matchId, p.1, p.2⟩)

/-- `_save_match_info`: `INSERT OR REPLACE INTO matches`. -/
def _save_match_info (s : Store) (m : RemoteMatch) : Store :=
  { s with matchesTable := upsertBy MatchRow.matchId (rowOfMatch m) s.matchesTable }

/-- `_save_stats`: `INSERT OR REPLACE INTO stats`. -/
def _save_stats (s : Store) (matchId : String) (st : StatsValue) : Store :=
  { s with stats := upsertBy StatsRow.matchId (statsRowOf matchId st) s.stats }

/-- `_save_team_mmrs`: `DELETE FROM team_mmrs WHERE match_id = ?` followed
by one `INSERT` per reported team. -/
def _save_team_mmrs (s : Store) (matchId : String) (st : StatsValue) : Store :=
  { s with team_mmrs :=
      s.team_mmrs.filter (fun r => !(r.matchId == matchId)) ++ teamRowsOf matchId st }

/-- `save_match_data` when every write succeeds: info, stats and team
MMRs written in sequence, then committed. -/
def save_match_data (s : Store) (m : RemoteMatch) (st : StatsValue) : Store :=
  _save_team_mmrs (_save_stats (_save_match_info s m) m.matchId st) m.matchId st

/-- `save_match_data` including failure behaviour: the three writes run
inside one `with get_db_connection() as conn:` block, whose sqlite3
context manager commits on success and rolls the transaction back when a
write raises.  `fi`, `fs`, `ft` say whether the info / stats / team write
raises. -/
def save_match_data_tx (s : Store) (m : RemoteMatch) (st : StatsValue)
    (fi fs ft : Bool) : Store :=
  if fi then s
  else
    let t1 := _save_match_info s m
    if fs then s
    else
      let t2 := _save_stats t1 m.matchId st
      if ft then s
      else _save_team_mmrs t2 m.matchId st

/-- `Get_Latest_Match`: `SELECT * FROM matches ORDER BY start_time DESC
LIMIT 1` — a row with maximal start time (sqlite tie-break is
implementation-defined; the model keeps the first such row). -/
def latestMatch : List MatchRow → Option MatchRow
  | [] => none
  | r :: rs =>
    match latestMatch rs with
    | none => some r
    | some b => if b.startTime > r.startTime then some b else some r

/-- The `latestKnownId` the watcher passes to `get_new_matches`:
`db_latest_match['MatchId'] if db_latest_match else ""`. -/
def latestKnownId (s : Store) : String :=
  match latestMatch s.matchesTable with
  | some r => r.matchId
  | none => ""

/-- `get_asset_from_db`: lookup by `(AssetId, VersionId)` in the given
table. -/
def get_asset_from_db (s : Store) (t : AssetTable) (assetId versionId : String) :
    Option AssetRow :=
  (match t with | .maps => s.maps | .modes => s.modes).find?
    (fun r => r.assetId == assetId && r.versionId == versionId)

/-- `upsert_asset`: `INSERT OR REPLACE` into the `maps` or `Modes` table,
keyed by `(AssetId, VersionId)`. -/
def upsert_asset (s : Store) (t : AssetTable) (assetId versionId : String)
    (publicName description : Option String) : Store :=
  let row : AssetRow := ⟨assetId, versionId, publicName, description⟩
  let key : AssetRow → String × String := fun r => (r.assetId, r.versionId)
  match t with
  | .maps => { s with maps := upsertBy key row s.maps }
  | .modes => { s with modes := upsertBy key row s.modes }

/-! ### `utils/scraper.py`: remote client -/

/-- Outcome of the `get_match_list` call inside `get_new_matches`:
either a parsed body carrying `Results`, or `halo_request` returned
`None` (network error, non-401 HTTP error, missing `Results`), or it
raised `InvalidTokenError` (HTTP 401). -/
inductive ListFetchOutcome where
  | ok (results : List RemoteMatch)
  | failed
  | authError

/-- Outcome of the skill request inside `get_match_stats`. -/
inductive StatsFetchOutcome where
  | ok (st : StatsValue)
  | notReady
  | transientError
  | authError

/-- The delta computation of `get_new_matches` on a fetched page: if the
old match id occurs in the page, keep the page entries whose start time
is strictly greater than the start time of the page entry carrying that
id (`next(m for m in matches if m["MatchId"] == old_match_id)`);
otherwise return the whole page. -/
def deltaFromPage (oldMatchId : String) (page : List RemoteMatch) : List RemoteMatch :=
  match page.find? (fun m => m.matchId == oldMatchId) with
  | some old => page.filter (fun m => old.startTime < m.startTime)
  | none => page

/-- `get_new_matches`: fetches the page (count=5) and computes the delta.
An `InvalidTokenError` from the list call is caught and turned into `[]`;
a `None` response is also turned into `[]`. -/
def get_new_matches (oldMatchId : String) (o : ListFetchOutcome) : List RemoteMatch :=
  match o with
  | .authError => []
  | .failed => []
  | .ok page => deltaFromPage oldMatchId page

/-- `get_match_stats`: returns the validated stats payload, `none` when
the response is `None` (network or non-401 HTTP failure) or lacks the
`Value[0].Result.RankRecap` path (stats not ready), and lets
`InvalidTokenError` (the `.error` case) propagate to the caller. -/
def get_match_stats : StatsFetchOutcome → Except Unit (Option StatsValue)
  | .ok st => .ok (some st)
  | .notReady => .ok none
  | .transientError => .ok none
  | .authError => .error ()

/-! ### `cogs/halo_watcher.py`: sync engine -/

/-- The remote endpoints as seen by one synchronize run: the match-list
outcome, the per-match stats outcome, and the UGC asset endpoint
(`none` models a `fetch_ugc_asset` call that returned the empty dict). -/
structure RemoteEnv where
  list : ListFetchOutcome
  stats : String → StatsFetchOutcome
  asset : AssetTable → String → String → Option AssetData

/-- `_get_or_fetch_asset_data`: resolve from the cache table, else fetch
and (when the fetch succeeded) upsert into the cache. -/
def get_or_fetch_asset (env : RemoteEnv) (s : Store) (t : AssetTable)
    (assetId versionId : String) : Store :=
  match get_asset_from_db s t assetId versionId with
  | some _ => s
  | none =>
    match env.asset t assetId versionId with
    | some d => upsert_asset s t assetId versionId d.publicName d.description
    | none => s

/-- `_process_new_match`: fetch stats; an `InvalidTokenError` propagates
(`.error`); a `None` stats value is skipped without persisting anything;
otherwise the match is saved and the mode and map assets are resolved
through the cache.  (The `if stats is False` branch of the source is
unreachable: `get_match_stats` never returns `False`.) -/
def process_new_match (env : RemoteEnv) (s : Store) (m : RemoteMatch) :
    Except Unit Store :=
  match get_match_stats (env.stats m.matchId) with
  | .error _ => .error ()
  | .ok none => .ok s
  | .ok (some st) =>
    let s1 := save_match_data s m st
    let s2 := get_or_fetch_asset env s1 .modes m.ugcAssetId m.ugcVersionId
    let s3 := get_or_fetch_asset env s2 .maps m.mapAssetId m.mapVersionId
    .ok s3

/-- The `for match in new_matches:` loop of `check_for_new_matches`.  A
propagating `InvalidTokenError` aborts the loop (and kills the polling
task); matches committed before it remain committed. -/
def processMatches (env : RemoteEnv) (s : Store) : List RemoteMatch → Store
  | [] => s
  | m :: rest =>
    match process_new_match env s m with
    | .error _ => s
    | .ok s1 => processMatches env s1 rest

/-- `check_for_new_matches` (one synchronize run): re-derive the latest
known match id from the store, compute the delta, and process it in the
order the remote returned. -/
def check_for_new_matches (env : RemoteEnv) (s : Store) : Store :=
  processMatches env s (get_new_matches (latestKnownId s) env.list)

/-! ### `match_cache.get_recent_match_data` -/

/-- A row of the `matches JOIN stats` projection that
`get_recent_match_data` selects. -/
structure JoinedRow where
  matchId : String
  startTime : Int
  endTime : String
  duration : String
  outcome : Option Int
  preCsr : Option Int
  postCsr : Option Int
  kills : Option Int
  deaths : Option Int
  killsExpected : Option Int
  deathsExpected : Option Int
  teamMmr : Option Int
deriving DecidableEq

/-- The projected row for one matching `(matches, stats)` pair. -/
def joinRow (m : MatchRow) (sr : StatsRow) : JoinedRow :=
  ⟨m.matchId, m.startTime, m.endTime, m.duration, m.outcome,
   sr.preCsr, sr.postCsr, sr.kills, sr.deaths,
   sr.killsExpected, sr.deathsExpected, sr.teamMmr⟩

/-- Row order of `ORDER BY m.start_time DESC` (ties are
implementation-defined in sqlite; the model uses a stable sort). -/
def rowGE (a b : JoinedRow) : Prop := b.startTime ≤ a.startTime

instance : DecidableRel rowGE := fun a b => inferInstanceAs (Decidable (b.startTime ≤ a.startTime))

instance : IsTotal JoinedRow rowGE := ⟨fun a b => Int.le_total b.startTime a.startTime⟩

instance : IsTrans JoinedRow rowGE := ⟨fun _ _ _ h1 h2 => Int.le_trans h2 h1⟩

/-- `SELECT ... FROM matches m JOIN stats s ON m.match_id = s.match_id
ORDER BY m.start_time DESC`. -/
def joinedRowsDesc (s : Store) : List JoinedRow :=
  List.insertionSort rowGE
    (s.matchesTable.filterMap (fun m =>
      (s.stats.find? (fun sr => sr.matchId == m.matchId)).map (joinRow m)))

/-- The session walk of `get_recent_match_data(session_only=True)`:
starting from the most recent match, keep taking while the gap between
consecutive start times is at most 2 hours (7200 seconds), and stop at
the first larger gap. -/
def sessionTake (lastTime : Int) : List JoinedRow → List JoinedRow
  | [] => []
  | r :: rs =>
    if lastTime - r.startTime > 7200 then []
    else r :: sessionTake r.startTime rs

/-- The session branch over the fetched rows: seed `last_match_time` with
the first (most recent) row's start time, walk, and reverse. -/
def sessionRows : List JoinedRow → List JoinedRow
  | [] => []
  | first :: rest => (sessionTake first.startTime (first :: rest)).reverse

/-- `get_recent_match_data`: in session mode, the session walk over all
joined rows in descending start-time order, returned reversed (ascending);
otherwise the `count` most recent joined rows in descending order
(`LIMIT count`), returned as queried. -/
def get_recent_match_data (s : Store) (count : Nat) (sessionOnly : Bool) :
    List JoinedRow :=
  if sessionOnly then sessionRows (joinedRowsDesc s)
  else (joinedRowsDesc s).take count

/-! ### Reporting (`handle_halo_stopped` and the `report` command) -/

/-- The collaborators of one reporting pass: what each of the three chart
generators returns (`none` models a generator that produced no file), and
which transmissions (`dm.send(file=...)`) raise. -/
structure ReportEnv where
  genCsr : Option String
  genKd : Option String
  genRatio : Option String
  sendFails : String → Bool

/-- One `if path: send; os.remove(path)` block.  Returns (aborted, disk):
the generator writes the file to disk; a raising `dm.send` aborts the
enclosing function before `os.remove` runs. -/
def sendChart (env : ReportEnv) (gen : Option String) (disk : List String) :
    Bool × List String :=
  match gen with
  | none => (false, disk)
  | some path =>
    let d := path :: disk
    if env.sendFails path then (true, d) else (false, d.erase path)

/-- The chart block shared by `handle_halo_stopped` and `report`: generate
and send the CSR trend, K/D and K/D-ratio charts in order; an exception
from any transmission aborts the rest.  Returns the files left on disk. -/
def sendReportCharts (env : ReportEnv) (rows : List JoinedRow) : List String :=
  if rows.isEmpty then []
  else
    let r1 := sendChart env env.genCsr []
    if r1.1 then r1.2
    else
      let r2 := sendChart env env.genKd r1.2
      if r2.1 then r2.2
      else (sendChart env env.genRatio r2.2).2

/-! ### Predicates used by the claims -/

/-- Equality of database contents: the `matches`, `stats`, `maps` and
`Modes` tables are equal row lists, and the `team_mmrs` table holds the
same rows (as a multiset: sqlite row order within a table carries no
meaning and `_save_team_mmrs` re-inserts rows at the end). -/
def Store.Equiv (a b : Store) : Prop :=
  a.matchesTable = b.matchesTable ∧ a.stats = b.stats ∧
  List.Perm a.team_mmrs b.team_mmrs ∧ a.maps = b.maps ∧ a.modes = b.modes

/-- The referential invariant of the schema: a `stats` row never exists
without a `matches` row of the same match id. -/
def StatsMatchInv (s : Store) : Prop :=
  ∀ r ∈ s.stats, ∃ mr ∈ s.matchesTable, mr.matchId = r.matchId

/-- The write operations the store exposes (`save_match_data` with its
possible write failures, and `upsert_asset`). -/
inductive StoreOp where
  | saveOp (m : RemoteMatch) (st : StatsValue) (fi fs ft : Bool)
  | assetOp (t : AssetTable) (assetId versionId : String)
            (publicName description : Option String)

/-- Apply one store operation. -/
def applyOp : StoreOp → Store → Store
  | .saveOp m st fi fs ft, s => save_match_data_tx s m st fi fs ft
  | .assetOp t a v pn d, s => upsert_asset s t a v pn d

/-- Well-formedness of one player's match history: across the stored
rows and the remote page, equal start times only occur for the same
match id (two distinct matches of a single player never start at the
same instant). -/
def StartsInj (s : Store) (page : List RemoteMatch) : Prop :=
  ∀ p1 ∈ s.matchesTable.map (fun r => (r.matchId, r.startTime)) ++
          page.map (fun m => (m.matchId, m.startTime)),
  ∀ p2 ∈ s.matchesTable.map (fun r => (r.matchId, r.startTime)) ++
          page.map (fun m => (m.matchId, m.startTime)),
    p1.2 = p2.2 → p1.1 = p2.1

/-- The asset reference `(t, a, v)` needs no further store write in this
environment: it is cached, or the remote asset endpoint cannot deliver it. -/
def assetOk (env : RemoteEnv) (s : Store) (t : AssetTable) (a v : String) : Prop :=
  (get_asset_from_db s t a v).isSome = true ∨ env.asset t a v = none

/-- The store resulting from processing one match whose stats are ready:
`save_match_data`, then mode asset, then map asset. -/
def afterProcess (env : RemoteEnv) (s : Store) (m : RemoteMatch) (st : StatsValue) : Store :=
  get_or_fetch_asset env
    (get_or_fetch_asset env (save_match_data s m st) .modes m.ugcAssetId m.ugcVersionId)
    .maps m.mapAssetId m.mapVersionId

/-- The store `s` already holds exactly what processing match `m` with
stats `st` would write: the `matches` and `stats` rows, the team rows, and
no missing fetchable asset. -/
def CurrentFor (env : RemoteEnv) (s : Store) (m : RemoteMatch) (st : StatsValue) : Prop :=
  s.matchesTable.find?
      (fun r => MatchRow.matchId r == MatchRow.matchId (rowOfMatch m))
    = some (rowOfMatch m)
  ∧ s.stats.find?
      (fun r => StatsRow.matchId r == StatsRow.matchId (statsRowOf m.matchId st))
    = some (statsRowOf m.matchId st)
  ∧ s.team_mmrs.filter (fun r => r.matchId == m.matchId) = teamRowsOf m.matchId st
  ∧ assetOk env s .modes m.ugcAssetId m.ugcVersionId
  ∧ assetOk env s .maps m.mapAssetId m.mapVersionId

/-! ### Concrete fixtures for witnesses and counterexamples -/

/-- A concrete validated stats payload. -/
def stA : StatsValue :=
  ⟨some 1400, some 1410, some 10, some 5, some 9, some 6, some 1500,
   [("0", 1500), ("1", 1490)]⟩

/-- A concrete remote match entry. -/
def mkMatch (id : String) (t : Int) : RemoteMatch :=
  ⟨id, t, "e", "PT8M", some 2, some 1, "pl", "map-" ++ id, "v1",
   "mode-" ++ id, "v1", some true, some true⟩

/-- A store holding one fully saved match. -/
def storeA : Store := save_match_data init_db (mkMatch "m0" 100) stA

/-- The store of the session-windowing example: matches at 10:00, 10:30,
11:00 and 13:30 (seconds since midnight), each with a stats row. -/
def sessionStore : Store :=
  save_match_data
    (save_match_data
      (save_match_data
        (save_match_data init_db (mkMatch "m1" 36000) stA)
        (mkMatch "m2" 37800) stA)
      (mkMatch "m3" 39600) stA)
    (mkMatch "m4" 48600) stA

/-- The joined row produced for a fixture match. -/
def jm (id : String) (t : Int) : JoinedRow :=
  joinRow (rowOfMatch (mkMatch id t)) (statsRowOf id stA)

/-- A remote environment whose match-list request fails with HTTP 401. -/
def envAuth : RemoteEnv := ⟨.authError, fun _ => .notReady, fun _ _ _ => none⟩

/-- A remote environment where the stats fetch for m1 hits a transient
(non-401) failure while m2 succeeds. -/
def env7 : RemoteEnv :=
  ⟨.ok [mkMatch "m1" 100, mkMatch "m2" 200],
   fun id => if id == "m1" then .transientError else .ok stA,
   fun _ _ _ => none⟩

/-- A reporting pass in which all three charts are generated and the
first transmission raises. -/
def reportEnvFail : ReportEnv :=
  ⟨some "csr_trend.png", some "kd_plot.png", some "kd_ratio_plot.png",
   fun p => p == "csr_trend.png"⟩

/-- A reporting pass in which all transmissions succeed. -/
def reportEnvOk : ReportEnv :=
  ⟨some "csr_trend.png", some "kd_plot.png", some "kd_ratio_plot.png",
   fun _ => false⟩

/-- The page used by the C1 witness. -/
def pageA : List RemoteMatch := [mkMatch "m0" 100, mkMatch "m1" 200, mkMatch "m2" 50]

/-- A page not containing the id of the latest match of `storeA`. -/
def pageB : List RemoteMatch := [mkMatch "m7" 700]

/-- A nonempty report input. -/
def rows1 : List JoinedRow := [jm "m1" 36000]

/-- A remote environment for the idempotence witness: one-match page,
stats ready, assets unfetchable. -/
def env3 : RemoteEnv := ⟨.ok pageB, fun _ => .ok stA, fun _ _ _ => none⟩

/-! ## Helper lemmas -/

theorem mem_upsertBy {α : Type} {κ : Type} [DecidableEq κ] (key : α → κ)
    (row r : α) (l : List α) (h : r ∈ upsertBy key row l) : r = row ∨ r ∈ l := by
  induction l with
  | nil => simpa [upsertBy] using h
  | cons x xs ih =>
    by_cases hk : key x = key row
    · simp only [upsertBy, if_pos hk, List.mem_cons] at h
      rcases h with h | h
      · exact Or.inl h
      · exact Or.inr (List.mem_cons_of_mem x h)
    · simp only [upsertBy, if_neg hk, List.mem_cons] at h
      rcases h with h | h
      · exact Or.inr (h ▸ List.mem_cons_self x xs)
      · rcases ih h with h1 | h1
        · exact Or.inl h1
        · exact Or.inr (List.mem_cons_of_mem x h1)

theorem self_mem_upsertBy {α : Type} {κ : Type} [DecidableEq κ] (key : α → κ)
    (row : α) (l : List α) : row ∈ upsertBy key row l := by
  induction l with
  | nil => simp [upsertBy]
  | cons x xs ih =>
    by_cases hk : key x = key row
    · simp [upsertBy, if_pos hk]
    · simp only [upsertBy, if_neg hk, List.mem_cons]
      exact Or.inr ih

theorem mem_upsertBy_of_ne {α : Type} {κ : Type} [DecidableEq κ] (key : α → κ)
    (row r : α) (l : List α) (hr : r ∈ l) (hk : key r ≠ key row) :
    r ∈ upsertBy key row l := by
  induction l with
  | nil => cases hr
  | cons x xs ih =>
    rcases List.mem_cons.mp hr with h | h
    · subst h
      simp [upsertBy, if_neg hk]
    · by_cases hx : key x = key row
      · simp only [upsertBy, if_pos hx, List.mem_cons]
        exact Or.inr h
      · simp only [upsertBy, if_neg hx, List.mem_cons]
        exact Or.inr (ih h)

theorem find?_upsertBy_self (key : α → String) (row : α) (l : List α) :
    (upsertBy key row l).find? (fun r => key r == key row) = some row := by
  induction l with
  | nil => simp [upsertBy]
  | cons x xs ih =>
    by_cases hk : key x = key row
    · simp [upsertBy, if_pos hk]
    · simp only [upsertBy, if_neg hk]
      rw [List.find?_cons_of_neg, ih]
      simpa using hk

theorem find?_upsertBy_ne (key : α → String) (row : α) (l : List α) (k : String)
    (hk : k ≠ key row) :
    (upsertBy key row l).find? (fun r => key r == k) = l.find? (fun r => key r == k) := by
  have hrow : ((fun r => key r == k) row) = false := by
    simpa using fun h => hk h.symm
  induction l with
  | nil =>
    simp only [upsertBy, List.find?_nil]
    rw [List.find?_cons_of_neg _ (by simp [hrow]), List.find?_nil]
  | cons x xs ih =>
    by_cases hx : key x = key row
    · have hxf : ((fun r => key r == k) x) = false := by
        simpa [hx] using fun h => hk h.symm
      simp only [upsertBy, if_pos hx]
      rw [List.find?_cons_of_neg _ (by simp [hrow]),
          List.find?_cons_of_neg _ (by simp [hxf])]
    · by_cases hxk : key x = k
      · rw [show upsertBy key row (x :: xs) = x :: upsertBy key row xs from by
              simp [upsertBy, if_neg hx],
            List.find?_cons_of_pos _ (by simpa using hxk),
            List.find?_cons_of_pos _ (by simpa using hxk)]
      · rw [show upsertBy key row (x :: xs) = x :: upsertBy key row xs from by
              simp [upsertBy, if_neg hx],
            List.find?_cons_of_neg _ (by simpa using hxk),
            List.find?_cons_of_neg _ (by simpa using hxk), ih]

theorem upsertBy_eq_of_find? (key : α → String) (row : α) (l : List α)
    (h : l.find? (fun r => key r == key row) = some row) : upsertBy key row l = l := by
  induction l with
  | nil => simp at h
  | cons x xs ih =>
    by_cases hk : key x = key row
    · rw [List.find?_cons_of_pos _ (by simpa using hk)] at h
      simp only [upsertBy, if_pos hk]
      rw [Option.some_inj.mp h]
    · rw [List.find?_cons_of_neg _ (by simpa using hk)] at h
      simp only [upsertBy, if_neg hk]
      rw [ih h]

theorem latestMatch_eq_none_iff {l : List MatchRow} : latestMatch l = none ↔ l = [] := by
  constructor
  · intro h
    cases l with
    | nil => rfl
    | cons x xs =>
      exfalso
      cases hx : latestMatch xs with
      | none =>
        have h2 : latestMatch (x :: xs) = some x := by
          simp only [latestMatch, hx]
        rw [h2] at h
        cases h
      | some b =>
        have h2 : latestMatch (x :: xs)
            = if b.startTime > x.startTime then some b else some x := by
          simp only [latestMatch, hx]
        rw [h2] at h
        by_cases hb : b.startTime > x.startTime <;> simp [hb] at h
  · intro h; simp [h, latestMatch]

theorem latestMatch_mem {l : List MatchRow} {r : MatchRow}
    (h : latestMatch l = some r) : r ∈ l := by
  induction l generalizing r with
  | nil => simp [latestMatch] at h
  | cons x xs ih =>
    cases hx : latestMatch xs with
    | none =>
      have h2 : latestMatch (x :: xs) = some x := by simp only [latestMatch, hx]
      rw [h2] at h
      exact (Option.some_inj.mp h) ▸ List.mem_cons_self x xs
    | some b =>
      have h2 : latestMatch (x :: xs)
          = if b.startTime > x.startTime then some b else some x := by
        simp only [latestMatch, hx]
      rw [h2] at h
      by_cases hgt : b.startTime > x.startTime
      · rw [if_pos hgt] at h
        exact List.mem_cons_of_mem x (ih ((Option.some_inj.mp h) ▸ hx))
      · rw [if_neg hgt] at h
        exact (Option.some_inj.mp h) ▸ List.mem_cons_self x xs

theorem latestMatch_isMax {l : List MatchRow} {r : MatchRow}
    (h : latestMatch l = some r) : ∀ x ∈ l, x.startTime ≤ r.startTime := by
  induction l generalizing r with
  | nil => simp [latestMatch] at h
  | cons x xs ih =>
    intro y hy
    cases hx : latestMatch xs with
    | none =>
      have hxs : xs = [] := latestMatch_eq_none_iff.mp hx
      subst hxs
      have h2 : latestMatch [x] = some x := by simp only [latestMatch]
      rw [h2] at h
      rcases List.mem_cons.mp hy with h1 | h1
      · exact h1 ▸ ((Option.some_inj.mp h) ▸ le_refl x.startTime)
      · cases h1
    | some b =>
      have h2 : latestMatch (x :: xs)
          = if b.startTime > x.startTime then some b else some x := by
        simp only [latestMatch, hx]
      rw [h2] at h
      by_cases hgt : b.startTime > x.startTime
      · rw [if_pos hgt] at h
        have hb : b = r := Option.some_inj.mp h
        rcases List.mem_cons.mp hy with h1 | h1
        · exact h1 ▸ (hb ▸ le_of_lt hgt)
        · exact hb ▸ ih hx y h1
      · rw [if_neg hgt] at h
        have hr : x = r := Option.some_inj.mp h
        rcases List.mem_cons.mp hy with h1 | h1
        · exact h1 ▸ (hr ▸ le_refl _)
        · exact le_trans (ih hx y h1) (hr ▸ le_of_not_gt hgt)

theorem sessionTake_sublist (t : Int) (l : List JoinedRow) :
    List.Sublist (sessionTake t l) l := by
  induction l generalizing t with
  | nil => simp [sessionTake]
  | cons x xs ih =>
    by_cases h : t - x.startTime > 7200
    · simp only [sessionTake, if_pos h]
      exact List.nil_sublist _
    · simp only [sessionTake, if_neg h]
      exact List.Sublist.cons₂ x (ih x.startTime)

/-! ## Claims -/

/-- Claim C1: on a successfully fetched page, the computed delta is
exactly the page entries whose start time is strictly greater than that
of the page entry carrying the latest locally known match id, when that
id occurs in the page; when it does not occur (including the empty store,
whose sentinel id is the empty string), the delta is the whole page. -/
theorem c1_delta_computation (s : Store) (page : List RemoteMatch) :
    (s.matchesTable = [] → latestKnownId s = "")
    ∧ (∀ old, page.find? (fun m => m.matchId == latestKnownId s) = some old →
        get_new_matches (latestKnownId s) (.ok page)
          = page.filter (fun m => old.startTime < m.startTime))
    ∧ (latestKnownId s ∉ page.map (fun m => m.matchId) →
        get_new_matches (latestKnownId s) (.ok page) = page) := by
  refine ⟨fun h => ?_, fun old h => ?_, fun h => ?_⟩
  · simp [latestKnownId, h, latestMatch]
  · simp [get_new_matches, deltaFromPage, h]
  · have hn : page.find? (fun m => m.matchId == latestKnownId s) = none := by
      rw [List.find?_eq_none]
      intro x hx hpx
      exact h (List.mem_map.mpr ⟨x, hx, by simpa using hpx⟩)
    simp [get_new_matches, deltaFromPage, hn]

/-- Claim C1 witness: concrete instances of all three conjuncts. -/
theorem c1_delta_computation_witness :
    latestKnownId init_db = ""
    ∧ get_new_matches (latestKnownId storeA) (.ok pageA) = [mkMatch "m1" 200]
    ∧ get_new_matches (latestKnownId storeA) (.ok pageB) = pageB := by
  refine ⟨(c1_delta_computation init_db pageA).1 rfl, ?_, ?_⟩
  · have h := (c1_delta_computation storeA pageA).2.1 (mkMatch "m0" 100) (by decide)
    rw [h]; decide
  · exact (c1_delta_computation storeA pageB).2.2 (by decide)

/-- Claim C2 (code bug): an `InvalidTokenError` raised by the match-list
request is caught inside `get_new_matches` and collapsed into the empty
list — the same value an empty page produces — so the caller cannot
distinguish an auth failure from "no new data", `check_for_new_matches`
performs no handling at all (its `new_matches is False` branch is
unreachable), and polling silently continues. -/
theorem c2_auth_collapse :
    get_new_matches (latestKnownId storeA) .authError = []
    ∧ get_new_matches (latestKnownId storeA) (.ok []) = []
    ∧ check_for_new_matches envAuth storeA = storeA :=
  ⟨rfl, rfl, rfl⟩

/-- Claim C6: the three writes of `save_match_data` are one transaction:
with no write failure the committed result is exactly the full save, and
any failing write rolls the store back to exactly its prior state. -/
theorem c6_save_transactional (s : Store) (m : RemoteMatch) (st : StatsValue)
    (fi fs ft : Bool) :
    (fi = false → fs = false → ft = false →
      save_match_data_tx s m st fi fs ft = save_match_data s m st)
    ∧ (fi = true ∨ fs = true ∨ ft = true →
      save_match_data_tx s m st fi fs ft = s) := by
  cases fi <;> cases fs <;> cases ft <;>
    simp [save_match_data_tx, save_match_data]

/-- Claim C6 witness: the transaction at concrete inputs, committed and
rolled back. -/
theorem c6_save_transactional_witness :
    save_match_data_tx storeA (mkMatch "m9" 900) stA false false false
      = save_match_data storeA (mkMatch "m9" 900) stA
    ∧ save_match_data_tx storeA (mkMatch "m9" 900) stA false true false = storeA :=
  ⟨(c6_save_transactional storeA (mkMatch "m9" 900) stA false false false).1 rfl rfl rfl,
   (c6_save_transactional storeA (mkMatch "m9" 900) stA false true false).2
     (Or.inr (Or.inl rfl))⟩

theorem mem_joinedRowsDesc {s : Store} {row : JoinedRow} (h : row ∈ joinedRowsDesc s) :
    ∃ sr ∈ s.stats, sr.matchId = row.matchId := by
  unfold joinedRowsDesc at h
  have h2 := (List.perm_insertionSort rowGE _).mem_iff.mp h
  rcases List.mem_filterMap.mp h2 with ⟨m, _hm, hmap⟩
  cases hf : s.stats.find? (fun sr => sr.matchId == m.matchId) with
  | none => rw [hf] at hmap; cases hmap
  | some sr =>
    rw [hf] at hmap
    have hrow : joinRow m sr = row := Option.some_inj.mp hmap
    have hid : sr.matchId = m.matchId := by simpa using List.find?_some hf
    exact ⟨sr, List.mem_of_find?_eq_some hf, by rw [← hrow]; simpa [joinRow] using hid⟩

/-- Claim C8: `stats` rows never exist without a `matches` row of the same
match id under any store operation, and a save leaves the `team_mmrs` rows
of that match in 1:1 correspondence with exactly the teams it reported. -/
theorem c8_store_invariants :
    (∀ (op : StoreOp) (s : Store), StatsMatchInv s → StatsMatchInv (applyOp op s))
    ∧ (∀ (s : Store) (m : RemoteMatch) (st : StatsValue),
        (save_match_data s m st).team_mmrs.filter (fun r => r.matchId == m.matchId)
          = teamRowsOf m.matchId st) := by
  constructor
  · rintro (⟨m, st, fi, fs, ft⟩ | ⟨t, a, v, pn, d⟩) s hInv
    · cases fi with
      | true => exact hInv
      | false =>
        cases fs with
        | true => exact hInv
        | false =>
          cases ft with
          | true => exact hInv
          | false =>
            intro r hr
            simp only [applyOp, save_match_data_tx, Bool.false_eq_true, if_false,
              _save_team_mmrs, _save_stats, _save_match_info] at hr ⊢
            rcases mem_upsertBy _ _ _ _ hr with h | h
            · refine ⟨rowOfMatch m, self_mem_upsertBy _ _ _, ?_⟩
              rw [h]
              rfl
            · rcases hInv r h with ⟨mr, hmr, hid⟩
              by_cases he : mr.matchId = (rowOfMatch m).matchId
              · exact ⟨rowOfMatch m, self_mem_upsertBy _ _ _, he ▸ hid⟩
              · exact ⟨mr, mem_upsertBy_of_ne _ _ _ _ hmr he, hid⟩
    · cases t with
      | maps => exact fun r hr => hInv r hr
      | modes => exact fun r hr => hInv r hr
  · intro s m st
    simp only [save_match_data, _save_team_mmrs, _save_stats, _save_match_info]
    rw [List.filter_append]
    have h1 : List.filter (fun r => r.matchId == m.matchId)
        (List.filter (fun r => !(r.matchId == m.matchId)) s.team_mmrs) = [] := by
      rw [List.filter_filter]
      apply List.filter_eq_nil_iff.mpr
      intro a _
      cases ha : (a.matchId == m.matchId) <;> simp [ha]
    have h2 : List.filter (fun r => r.matchId == m.matchId) (teamRowsOf m.matchId st)
        = teamRowsOf m.matchId st := by
      apply List.filter_eq_self.mpr
      intro a ha
      rcases List.mem_map.mp ha with ⟨p, _, hp⟩
      rw [← hp]
      simp
    rw [h1, h2, List.nil_append]

/-- Claim C8 witness: the invariant and the team-row correspondence at a
concrete store, match and stats payload. -/
theorem c8_store_invariants_witness :
    StatsMatchInv (applyOp (.saveOp (mkMatch "m9" 900) stA false false false) storeA)
    ∧ (save_match_data storeA (mkMatch "m9" 900) stA).team_mmrs.filter
        (fun r => r.matchId == (mkMatch "m9" 900).matchId)
        = teamRowsOf (mkMatch "m9" 900).matchId stA :=
  ⟨c8_store_invariants.1 (.saveOp (mkMatch "m9" 900) stA false false false) storeA
      (by simp only [StatsMatchInv]; decide),
   c8_store_invariants.2 storeA (mkMatch "m9" 900) stA⟩

/-- Claim C9 counterexample: with all three charts generated and the first
transmission raising, the report aborts before `os.remove` and the chart
file stays on disk — the claim that every generated chart is deleted even
when transmission fails is false. -/
theorem c9_leak_counterexample :
    sendReportCharts reportEnvFail rows1 = ["csr_trend.png"]
    ∧ sendReportCharts reportEnvFail rows1 ≠ [] :=
  ⟨rfl, by decide⟩

/-- Claim C9 amended: each chart file is deleted after a successful
transmission (no leak when no transmission fails); a raising transmission
aborts the report block before the `os.remove` of the current chart, which
is then left on disk. -/
theorem c9_no_leak_amended (env : ReportEnv) (rows : List JoinedRow)
    (h : ∀ p, env.sendFails p = false) : sendReportCharts env rows = [] := by
  rcases env with ⟨gc, gk, gr, sf⟩
  cases rows <;> cases gc <;> cases gk <;> cases gr <;>
    simp_all [sendReportCharts, sendChart, List.erase_cons_head]

/-- Claim C9 witness: no file remains when every transmission succeeds. -/
theorem c9_no_leak_witness :
    (∀ p, reportEnvOk.sendFails p = false)
    ∧ sendReportCharts reportEnvOk rows1 = [] :=
  ⟨fun _ => rfl, c9_no_leak_amended reportEnvOk rows1 (fun _ => rfl)⟩

/-- Claim C7 counterexample: with the delta [m1, m2] and a transient
(non-401) failure of the stats fetch for m1, the run does not abort: m2 is
still processed and committed, contradicting the claim that a transient
stats failure aborts the remaining delta of the current run. -/
theorem c7_transient_counterexample :
    (check_for_new_matches env7 init_db).stats.map (fun r => r.matchId) = ["m2"]
    ∧ check_for_new_matches env7 init_db ≠ init_db :=
  ⟨rfl, by decide⟩

/-- Claim C7 amended: a transient failure of the match-list fetch makes the
run a no-op (no store change); a transient failure of one per-match stats
fetch only skips that match — nothing is persisted for it and the remaining
delta matches are still processed; the next run re-derives the latest known
match from the store. -/
theorem c7_transient_amended :
    (∀ (env : RemoteEnv) (s : Store), env.list = .failed →
      check_for_new_matches env s = s)
    ∧ (∀ (env : RemoteEnv) (s : Store) (m : RemoteMatch) (rest : List RemoteMatch),
        env.stats m.matchId = .transientError →
        processMatches env s (m :: rest) = processMatches env s rest) := by
  constructor
  · intro env s h
    simp [check_for_new_matches, h, get_new_matches, processMatches]
  · intro env s m rest h
    simp [processMatches, process_new_match, h, get_match_stats]

/-- Claim C7 witness: both amended conjuncts at concrete inputs. -/
theorem c7_transient_witness :
    check_for_new_matches ⟨.failed, fun _ => .notReady, fun _ _ _ => none⟩ storeA = storeA
    ∧ processMatches env7 init_db [mkMatch "m1" 100, mkMatch "m2" 200]
        = processMatches env7 init_db [mkMatch "m2" 200] :=
  ⟨c7_transient_amended.1 ⟨.failed, fun _ => .notReady, fun _ _ _ => none⟩ storeA rfl,
   c7_transient_amended.2 env7 init_db (mkMatch "m1" 100) [mkMatch "m2" 200] rfl⟩

/-- Claim C4 counterexample: on the stored matches at 10:00, 10:30, 11:00
and 13:30 (the only gap over 2 hours being the one before 13:30), the
session query does not return the three matches at 10:00–11:00: the walk
starts at the most recent match (13:30) and stops at the first large gap,
so those three are never reached. -/
theorem c4_session_counterexample :
    get_recent_match_data sessionStore 10 true
      ≠ [jm "m1" 36000, jm "m2" 37800, jm "m3" 39600] := by
  decide

/-- Claim C4 amended: on that store the session query returns exactly the
single match at 13:30 — the contiguous session containing the most recent
match — in ascending order. -/
theorem c4_session_amended :
    get_recent_match_data sessionStore 10 true = [jm "m4" 48600] := by
  decide

/-- Claim C5 counterexample: in non-session mode the query returns the
`count` most recent matches in descending start-time order and no caller
reverses them, so the caller does not receive an ascending sequence. -/
theorem c5_ordering_counterexample :
    (get_recent_match_data sessionStore 2 false).map (fun r => r.startTime)
      = [48600, 39600]
    ∧ ¬ List.Pairwise (fun a b : JoinedRow => a.startTime ≤ b.startTime)
        (get_recent_match_data sessionStore 2 false) :=
  ⟨rfl, by decide⟩

theorem mem_of_mem_sessionRows {l : List JoinedRow} {row : JoinedRow}
    (h : row ∈ sessionRows l) : row ∈ l := by
  cases l with
  | nil => cases h
  | cons first rest =>
    exact (sessionTake_sublist first.startTime (first :: rest)).mem
      (List.mem_reverse.mp h)

theorem pairwise_session (l : List JoinedRow) (hl : List.Pairwise rowGE l) :
    List.Pairwise (fun a b : JoinedRow => a.startTime ≤ b.startTime)
      (sessionRows l) := by
  cases l with
  | nil => exact List.Pairwise.nil
  | cons first rest =>
    have hp : List.Pairwise rowGE (sessionTake first.startTime (first :: rest)) :=
      hl.sublist (sessionTake_sublist first.startTime (first :: rest))
    rw [sessionRows, List.pairwise_reverse]
    exact hp.imp (fun h => h)

/-- Claim C5 amended: the session branch returns an ascending sequence,
but the non-session branch returns the `count` most recent matches in
descending order, which is what callers receive (no reversal happens). -/
theorem c5_ordering_amended (s : Store) (count : Nat) :
    List.Pairwise (fun a b : JoinedRow => a.startTime ≤ b.startTime)
      (get_recent_match_data s count true)
    ∧ List.Pairwise (fun a b : JoinedRow => b.startTime ≤ a.startTime)
      (get_recent_match_data s count false) := by
  have hsorted : List.Pairwise rowGE (joinedRowsDesc s) :=
    List.sorted_insertionSort rowGE _
  constructor
  · exact pairwise_session (joinedRowsDesc s) hsorted
  · exact (hsorted.sublist (List.take_sublist count (joinedRowsDesc s))).imp
      (fun h => h)

/-- Claim C10: every row either mode of `get_recent_match_data` returns
comes from the inner join with `stats`: it always has a `stats` row with
the same match id, so a match without stats never reaches reporting. -/
theorem c10_no_orphan_rows (s : Store) (count : Nat) (sessionOnly : Bool)
    (row : JoinedRow) (h : row ∈ get_recent_match_data s count sessionOnly) :
    ∃ sr ∈ s.stats, sr.matchId = row.matchId := by
  apply mem_joinedRowsDesc
  cases sessionOnly with
  | false =>
    simp only [get_recent_match_data, Bool.false_eq_true, if_false] at h
    exact List.mem_of_mem_take h
  | true =>
    simp only [get_recent_match_data, if_true] at h
    exact mem_of_mem_sessionRows h

/-- Claim C10 witness: the join guarantee at a concrete store and row. -/
theorem c10_no_orphan_rows_witness :
    ∃ sr ∈ storeA.stats, sr.matchId = (jm "m0" 100).matchId :=
  c10_no_orphan_rows storeA 5 false (jm "m0" 100) (by decide)

/-! ## Lemmas towards idempotence of the synchronize run (C3) -/

theorem team_filter_save (l : List TeamRow) (mid : String) (st : StatsValue) :
    (l.filter (fun r => !(r.matchId == mid)) ++ teamRowsOf mid st).filter
        (fun r => r.matchId == mid)
      = teamRowsOf mid st := by
  rw [List.filter_append]
  have h1 : List.filter (fun r => r.matchId == mid)
      (List.filter (fun r => !(r.matchId == mid)) l) = [] := by
    rw [List.filter_filter]
    apply List.filter_eq_nil_iff.mpr
    intro a _
    cases ha : (a.matchId == mid) <;> simp [ha]
  have h2 : List.filter (fun r => r.matchId == mid) (teamRowsOf mid st)
      = teamRowsOf mid st := by
    apply List.filter_eq_self.mpr
    intro a ha
    rcases List.mem_map.mp ha with ⟨p, _, hp⟩
    rw [← hp]
    simp
  rw [h1, h2, List.nil_append]

theorem team_filter_other (l : List TeamRow) (mid mid' : String) (st' : StatsValue)
    (hne : mid ≠ mid') :
    (l.filter (fun r => !(r.matchId == mid')) ++ teamRowsOf mid' st').filter
        (fun r => r.matchId == mid)
      = l.filter (fun r => r.matchId == mid) := by
  rw [List.filter_append]
  have h2 : List.filter (fun r => r.matchId == mid) (teamRowsOf mid' st') = [] := by
    apply List.filter_eq_nil_iff.mpr
    intro a ha
    rcases List.mem_map.mp ha with ⟨p, _, hp⟩
    rw [← hp]
    simpa using fun h => hne h.symm
  have h1 : List.filter (fun r => r.matchId == mid)
      (List.filter (fun r => !(r.matchId == mid')) l)
      = List.filter (fun r => r.matchId == mid) l := by
    rw [List.filter_filter]
    apply List.filter_congr
    intro a _
    by_cases ha : a.matchId = mid
    · have hb : (a.matchId == mid) = true := by simpa using ha
      have hb' : (a.matchId == mid') = false := by
        rw [ha]; simpa using hne
      simp [hb, hb']
    · have hb : (a.matchId == mid) = false := by simpa using ha
      simp [hb]
  rw [h1, h2, List.append_nil]

theorem get_or_fetch_core_tables (env : RemoteEnv) (s : Store) (t : AssetTable)
    (a v : String) :
    (get_or_fetch_asset env s t a v).matchesTable = s.matchesTable
    ∧ (get_or_fetch_asset env s t a v).stats = s.stats
    ∧ (get_or_fetch_asset env s t a v).team_mmrs = s.team_mmrs := by
  unfold get_or_fetch_asset
  cases get_asset_from_db s t a v with
  | some r => exact ⟨rfl, rfl, rfl⟩
  | none =>
    cases env.asset t a v with
    | none => exact ⟨rfl, rfl, rfl⟩
    | some d => cases t <;> exact ⟨rfl, rfl, rfl⟩

theorem get_or_fetch_maps_table (env : RemoteEnv) (s : Store) (a v : String) :
    (get_or_fetch_asset env s .modes a v).maps = s.maps := by
  unfold get_or_fetch_asset
  cases get_asset_from_db s .modes a v with
  | some r => rfl
  | none =>
    cases env.asset .modes a v with
    | none => rfl
    | some d => rfl

theorem get_or_fetch_modes_table (env : RemoteEnv) (s : Store) (a v : String) :
    (get_or_fetch_asset env s .maps a v).modes = s.modes := by
  unfold get_or_fetch_asset
  cases get_asset_from_db s .maps a v with
  | some r => rfl
  | none =>
    cases env.asset .maps a v with
    | none => rfl
    | some d => rfl

theorem get_asset_from_db_congr {s s2 : Store} (t : AssetTable) (a v : String)
    (hm : s2.maps = s.maps) (hmo : s2.modes = s.modes) :
    get_asset_from_db s2 t a v = get_asset_from_db s t a v := by
  cases t <;> simp [get_asset_from_db, hm, hmo]

theorem get_asset_from_db_upsert_self (s : Store) (t : AssetTable) (a v : String)
    (pn d : Option String) :
    (get_asset_from_db (upsert_asset s t a v pn d) t a v).isSome = true := by
  have hmem : (⟨a, v, pn, d⟩ : AssetRow) ∈
      upsertBy (fun r : AssetRow => (r.assetId, r.versionId)) ⟨a, v, pn, d⟩
        (match t with | .maps => s.maps | .modes => s.modes) :=
    self_mem_upsertBy _ _ _
  cases t <;>
    (rw [get_asset_from_db, List.find?_isSome]
     exact ⟨⟨a, v, pn, d⟩, hmem, by simp⟩)

theorem asset_lookup_isSome_upsert (l : List AssetRow) (a v : String) (row : AssetRow)
    (h : (l.find? (fun r => r.assetId == a && r.versionId == v)).isSome = true) :
    ((upsertBy (fun r : AssetRow => (r.assetId, r.versionId)) row l).find?
        (fun r => r.assetId == a && r.versionId == v)).isSome = true := by
  rw [List.find?_isSome] at h ⊢
  rcases h with ⟨x, hx, hpx⟩
  have hxa : x.assetId = a ∧ x.versionId = v := by simpa using hpx
  by_cases hk : (x.assetId, x.versionId) = (row.assetId, row.versionId)
  · refine ⟨row, self_mem_upsertBy _ _ _, ?_⟩
    have h1 : row.assetId = a := by
      have := congrArg Prod.fst hk
      simp only at this
      rw [← this, hxa.1]
    have h2 : row.versionId = v := by
      have := congrArg Prod.snd hk
      simp only at this
      rw [← this, hxa.2]
    simp [h1, h2]
  · exact ⟨x, mem_upsertBy_of_ne _ _ _ _ hx hk, hpx⟩

theorem get_or_fetch_establish (env : RemoteEnv) (s : Store) (t : AssetTable)
    (a v : String) :
    assetOk env (get_or_fetch_asset env s t a v) t a v := by
  unfold assetOk get_or_fetch_asset
  cases hl : get_asset_from_db s t a v with
  | some r => left; rw [hl]; rfl
  | none =>
    cases ha : env.asset t a v with
    | none => right; rfl
    | some d => left; exact get_asset_from_db_upsert_self s t a v d.publicName d.description

theorem assetOk_asset_step (env : RemoteEnv) (s : Store) (t : AssetTable) (a v : String)
    (t2 : AssetTable) (a2 v2 : String)
    (h : assetOk env s t a v) :
    assetOk env (get_or_fetch_asset env s t2 a2 v2) t a v := by
  unfold get_or_fetch_asset
  cases hl : get_asset_from_db s t2 a2 v2 with
  | some r => exact h
  | none =>
    cases ha : env.asset t2 a2 v2 with
    | none => exact h
    | some d =>
      rcases h with h | h
      · left
        cases t <;> cases t2 <;>
          first
          | exact asset_lookup_isSome_upsert _ a v _ h
          | exact h
      · right; exact h

theorem get_or_fetch_noop (env : RemoteEnv) (s : Store) (t : AssetTable) (a v : String)
    (h : assetOk env s t a v) :
    get_or_fetch_asset env s t a v = s := by
  unfold get_or_fetch_asset
  cases hl : get_asset_from_db s t a v with
  | some r => rfl
  | none =>
    cases ha : env.asset t a v with
    | none => rfl
    | some d =>
      exfalso
      rcases h with h | h
      · rw [hl] at h; cases h
      · rw [ha] at h; cases h

theorem deltaFromPage_eq_of_none (k : String) (page : List RemoteMatch)
    (h : page.find? (fun m => m.matchId == k) = none) : deltaFromPage k page = page := by
  unfold deltaFromPage; rw [h]

theorem deltaFromPage_eq_of_some (k : String) (page : List RemoteMatch)
    (old : RemoteMatch) (h : page.find? (fun m => m.matchId == k) = some old) :
    deltaFromPage k page = page.filter (fun m => old.startTime < m.startTime) := by
  unfold deltaFromPage; rw [h]

theorem process_new_match_error (env : RemoteEnv) (s : Store) (m : RemoteMatch)
    (h : get_match_stats (env.stats m.matchId) = .error ()) :
    process_new_match env s m = .error () := by
  unfold process_new_match; rw [h]

theorem process_new_match_none (env : RemoteEnv) (s : Store) (m : RemoteMatch)
    (h : get_match_stats (env.stats m.matchId) = .ok none) :
    process_new_match env s m = .ok s := by
  unfold process_new_match; rw [h]

theorem process_new_match_some (env : RemoteEnv) (s : Store) (m : RemoteMatch)
    (st : StatsValue) (h : get_match_stats (env.stats m.matchId) = .ok (some st)) :
    process_new_match env s m = .ok (afterProcess env s m st) := by
  unfold process_new_match; rw [h]; rfl

theorem processMatches_cons_error (env : RemoteEnv) (s : Store) (m : RemoteMatch)
    (rest : List RemoteMatch) (h : get_match_stats (env.stats m.matchId) = .error ()) :
    processMatches env s (m :: rest) = s := by
  unfold processMatches; rw [process_new_match_error env s m h]

theorem processMatches_cons_none (env : RemoteEnv) (s : Store) (m : RemoteMatch)
    (rest : List RemoteMatch) (h : get_match_stats (env.stats m.matchId) = .ok none) :
    processMatches env s (m :: rest) = processMatches env s rest := by
  conv_lhs => rw [processMatches]
  rw [process_new_match_none env s m h]

theorem processMatches_cons_some (env : RemoteEnv) (s : Store) (m : RemoteMatch)
    (rest : List RemoteMatch) (st : StatsValue)
    (h : get_match_stats (env.stats m.matchId) = .ok (some st)) :
    processMatches env s (m :: rest) = processMatches env (afterProcess env s m st) rest := by
  conv_lhs => rw [processMatches]
  rw [process_new_match_some env s m st h]

theorem afterProcess_core (env : RemoteEnv) (s : Store) (m : RemoteMatch) (st : StatsValue) :
    (afterProcess env s m st).matchesTable
      = upsertBy MatchRow.matchId (rowOfMatch m) s.matchesTable
    ∧ (afterProcess env s m st).stats
      = upsertBy StatsRow.matchId (statsRowOf m.matchId st) s.stats
    ∧ (afterProcess env s m st).team_mmrs
      = s.team_mmrs.filter (fun r => !(r.matchId == m.matchId)) ++ teamRowsOf m.matchId st := by
  unfold afterProcess
  obtain ⟨h1, h2, h3⟩ := get_or_fetch_core_tables env
    (get_or_fetch_asset env (save_match_data s m st) .modes m.ugcAssetId m.ugcVersionId)
    .maps m.mapAssetId m.mapVersionId
  obtain ⟨g1, g2, g3⟩ := get_or_fetch_core_tables env (save_match_data s m st)
    .modes m.ugcAssetId m.ugcVersionId
  exact ⟨by rw [h1, g1]; rfl, by rw [h2, g2]; rfl, by rw [h3, g3]; rfl⟩

theorem assetOk_save (env : RemoteEnv) (s : Store) (t : AssetTable) (a v : String)
    (m' : RemoteMatch) (st' : StatsValue) (h : assetOk env s t a v) :
    assetOk env (save_match_data s m' st') t a v := by
  unfold assetOk at h ⊢
  rw [get_asset_from_db_congr t a v rfl rfl]
  exact h

theorem currentFor_establish (env : RemoteEnv) (s : Store) (m : RemoteMatch)
    (st : StatsValue) : CurrentFor env (afterProcess env s m st) m st := by
  obtain ⟨hM, hS, hT⟩ := afterProcess_core env s m st
  refine ⟨?_, ?_, ?_, ?_, ?_⟩
  · rw [hM]; exact find?_upsertBy_self _ _ _
  · rw [hS]; exact find?_upsertBy_self _ _ _
  · rw [hT]; exact team_filter_save _ _ _
  · exact assetOk_asset_step env _ .modes _ _ .maps _ _
      (get_or_fetch_establish env (save_match_data s m st) .modes m.ugcAssetId m.ugcVersionId)
  · exact get_or_fetch_establish env _ .maps m.mapAssetId m.mapVersionId

theorem currentFor_step (env : RemoteEnv) (s s1 : Store) (m m' : RemoteMatch)
    (st : StatsValue) (hne : m'.matchId ≠ m.matchId)
    (hps : process_new_match env s m' = .ok s1)
    (h : CurrentFor env s m st) : CurrentFor env s1 m st := by
  obtain ⟨hM, hS, hT, hAm, hAp⟩ := h
  cases hstx : get_match_stats (env.stats m'.matchId) with
  | error e =>
    cases e
    rw [process_new_match_error env s m' hstx] at hps
    cases hps
  | ok o =>
    cases o with
    | none =>
      rw [process_new_match_none env s m' hstx] at hps
      injection hps with hps
      exact hps ▸ ⟨hM, hS, hT, hAm, hAp⟩
    | some st' =>
      rw [process_new_match_some env s m' st' hstx] at hps
      injection hps with hps
      subst hps
      obtain ⟨aM, aS, aT⟩ := afterProcess_core env s m' st'
      have hmne : m.matchId ≠ m'.matchId := fun hh => hne hh.symm
      refine ⟨?_, ?_, ?_, ?_, ?_⟩
      · rw [aM, find?_upsertBy_ne MatchRow.matchId (rowOfMatch m') s.matchesTable
              (MatchRow.matchId (rowOfMatch m)) (fun hh => hmne hh)]
        exact hM
      · rw [aS, find?_upsertBy_ne StatsRow.matchId (statsRowOf m'.matchId st') s.stats
              (StatsRow.matchId (statsRowOf m.matchId st)) (fun hh => hmne hh)]
        exact hS
      · rw [aT, team_filter_other _ _ _ _ hmne]
        exact hT
      · exact assetOk_asset_step env _ .modes _ _ .maps _ _
          (assetOk_asset_step env _ .modes _ _ .modes _ _
            (assetOk_save env s .modes _ _ m' st' hAm))
      · exact assetOk_asset_step env _ .maps _ _ .maps _ _
          (assetOk_asset_step env _ .maps _ _ .modes _ _
            (assetOk_save env s .maps _ _ m' st' hAp))

theorem currentFor_processMatches (env : RemoteEnv) :
    ∀ (l : List RemoteMatch) (s : Store) (m : RemoteMatch) (st : StatsValue),
      (∀ m' ∈ l, m'.matchId ≠ m.matchId) → CurrentFor env s m st →
      CurrentFor env (processMatches env s l) m st := by
  intro l
  induction l with
  | nil => intro s m st _ h; exact h
  | cons x rest ih =>
    intro s m st hne h
    unfold processMatches
    cases hps : process_new_match env s x with
    | error e => exact h
    | ok s1 =>
      exact ih s1 m st (fun m' hm' => hne m' (List.mem_cons_of_mem x hm'))
        (currentFor_step env s s1 m x st (hne x (List.mem_cons_self x rest)) hps h)

theorem upsertBy_ne_nil {α : Type} {κ : Type} [DecidableEq κ] (key : α → κ) (row : α)
    (l : List α) : upsertBy key row l ≠ [] := by
  cases l with
  | nil => simp [upsertBy]
  | cons x xs => by_cases h : key x = key row <;> simp [upsertBy, h]

theorem processMatches_matches_origin (env : RemoteEnv) :
    ∀ (l : List RemoteMatch) (s : Store) (r : MatchRow),
      r ∈ (processMatches env s l).matchesTable →
      r ∈ s.matchesTable ∨ ∃ m ∈ l, r = rowOfMatch m := by
  intro l
  induction l with
  | nil => intro s r hr; exact Or.inl hr
  | cons x rest ih =>
    intro s r hr
    cases hstx : get_match_stats (env.stats x.matchId) with
    | error e =>
      cases e
      rw [processMatches_cons_error env s x rest hstx] at hr
      exact Or.inl hr
    | ok o =>
      cases o with
      | none =>
        rw [processMatches_cons_none env s x rest hstx] at hr
        rcases ih s r hr with h | ⟨m, hm, hrm⟩
        · exact Or.inl h
        · exact Or.inr ⟨m, List.mem_cons_of_mem x hm, hrm⟩
      | some stx =>
        rw [processMatches_cons_some env s x rest stx hstx] at hr
        rcases ih _ r hr with h | ⟨m, hm, hrm⟩
        · rw [(afterProcess_core env s x stx).1] at h
          rcases mem_upsertBy _ _ _ _ h with h1 | h1
          · exact Or.inr ⟨x, List.mem_cons_self x rest, h1⟩
          · exact Or.inl h1
        · exact Or.inr ⟨m, List.mem_cons_of_mem x hm, hrm⟩

theorem processMatches_row_survives (env : RemoteEnv) :
    ∀ (l : List RemoteMatch) (s : Store) (r : MatchRow),
      r ∈ s.matchesTable → (∀ m ∈ l, m.matchId ≠ r.matchId) →
      r ∈ (processMatches env s l).matchesTable := by
  intro l
  induction l with
  | nil => intro s r hr _; exact hr
  | cons x rest ih =>
    intro s r hr hne
    cases hstx : get_match_stats (env.stats x.matchId) with
    | error e =>
      cases e
      rw [processMatches_cons_error env s x rest hstx]
      exact hr
    | ok o =>
      cases o with
      | none =>
        rw [processMatches_cons_none env s x rest hstx]
        exact ih s r hr (fun m hm => hne m (List.mem_cons_of_mem x hm))
      | some stx =>
        rw [processMatches_cons_some env s x rest stx hstx]
        apply ih _ r ?_ (fun m hm => hne m (List.mem_cons_of_mem x hm))
        rw [(afterProcess_core env s x stx).1]
        exact mem_upsertBy_of_ne _ _ _ _ hr
          (fun hh => hne x (List.mem_cons_self x rest) (Eq.symm hh))

theorem processMatches_ne_nil (env : RemoteEnv) :
    ∀ (l : List RemoteMatch) (s : Store), s.matchesTable ≠ [] →
      (processMatches env s l).matchesTable ≠ [] := by
  intro l
  induction l with
  | nil => intro s h; exact h
  | cons x rest ih =>
    intro s h
    cases hstx : get_match_stats (env.stats x.matchId) with
    | error e =>
      cases e
      rw [processMatches_cons_error env s x rest hstx]
      exact h
    | ok o =>
      cases o with
      | none =>
        rw [processMatches_cons_none env s x rest hstx]
        exact ih s h
      | some stx =>
        rw [processMatches_cons_some env s x rest stx hstx]
        apply ih
        rw [(afterProcess_core env s x stx).1]
        exact upsertBy_ne_nil _ _ _

theorem page_id_inj {page : List RemoteMatch}
    (h : (page.map (fun m => m.matchId)).Nodup)
    {a b : RemoteMatch} (ha : a ∈ page) (hb : b ∈ page)
    (hab : a.matchId = b.matchId) : a = b :=
  List.inj_on_of_nodup_map h ha hb hab

theorem nodup_delta_ids (k : String) (page : List RemoteMatch)
    (h : (page.map (fun m => m.matchId)).Nodup) :
    ((deltaFromPage k page).map (fun m => m.matchId)).Nodup := by
  unfold deltaFromPage
  cases page.find? (fun m => m.matchId == k) with
  | none => exact h
  | some old =>
    exact h.sublist ((List.filter_sublist page).map _)

theorem processMatches_equiv (env : RemoteEnv) (sFix : Store) :
    ∀ (l : List RemoteMatch) (t : Store), Store.Equiv t sFix →
      (∀ m ∈ l, ∀ st, get_match_stats (env.stats m.matchId) = .ok (some st) →
        CurrentFor env sFix m st) →
      Store.Equiv (processMatches env t l) sFix := by
  intro l
  induction l with
  | nil => intro t ht _; exact ht
  | cons x rest ih =>
    intro t ht hcur
    cases hstx : get_match_stats (env.stats x.matchId) with
    | error e =>
      cases e
      rw [processMatches_cons_error env t x rest hstx]
      exact ht
    | ok o =>
      cases o with
      | none =>
        rw [processMatches_cons_none env t x rest hstx]
        exact ih t ht (fun m hm => hcur m (List.mem_cons_of_mem x hm))
      | some stx =>
        rw [processMatches_cons_some env t x rest stx hstx]
        apply ih _ ?_ (fun m hm => hcur m (List.mem_cons_of_mem x hm))
        obtain ⟨hM, hS, hT, hAm, hAp⟩ := hcur x (List.mem_cons_self x rest) stx hstx
        obtain ⟨eM, eS, eT, emaps, emodes⟩ := ht
        have hsaveMaps : (save_match_data t x stx).maps = sFix.maps := emaps
        have hsaveModes : (save_match_data t x stx).modes = sFix.modes := emodes
        have hAm2 : assetOk env (save_match_data t x stx) .modes x.ugcAssetId x.ugcVersionId := by
          unfold assetOk at hAm ⊢
          rw [get_asset_from_db_congr .modes x.ugcAssetId x.ugcVersionId hsaveMaps hsaveModes]
          exact hAm
        have hstep1 : get_or_fetch_asset env (save_match_data t x stx) .modes
            x.ugcAssetId x.ugcVersionId = save_match_data t x stx :=
          get_or_fetch_noop env _ .modes _ _ hAm2
        have hAp2 : assetOk env (save_match_data t x stx) .maps x.mapAssetId x.mapVersionId := by
          unfold assetOk at hAp ⊢
          rw [get_asset_from_db_congr .maps x.mapAssetId x.mapVersionId hsaveMaps hsaveModes]
          exact hAp
        have hafter : afterProcess env t x stx = save_match_data t x stx := by
          unfold afterProcess
          rw [hstep1]
          exact get_or_fetch_noop env _ .maps _ _ hAp2
        rw [hafter]
        refine ⟨?_, ?_, ?_, emaps, emodes⟩
        · show upsertBy MatchRow.matchId (rowOfMatch x) t.matchesTable = sFix.matchesTable
          rw [eM]
          exact upsertBy_eq_of_find? _ _ _ hM
        · show upsertBy StatsRow.matchId (statsRowOf x.matchId stx) t.stats = sFix.stats
          rw [eS]
          exact upsertBy_eq_of_find? _ _ _ hS
        · show List.Perm
            (t.team_mmrs.filter (fun r => !(r.matchId == x.matchId))
              ++ teamRowsOf x.matchId stx)
            sFix.team_mmrs
          have hp2 : List.Perm
              (t.team_mmrs.filter (fun r => !(r.matchId == x.matchId))
                ++ teamRowsOf x.matchId stx)
              (sFix.team_mmrs.filter (fun r => !(r.matchId == x.matchId))
                ++ sFix.team_mmrs.filter (fun r => r.matchId == x.matchId)) := by
            rw [hT]
            exact (eT.filter _).append (List.Perm.refl _)
          have hp3 : List.Perm
              (sFix.team_mmrs.filter (fun r => !(r.matchId == x.matchId))
                ++ sFix.team_mmrs.filter (fun r => r.matchId == x.matchId))
              sFix.team_mmrs := by
            have hfc : sFix.team_mmrs.filter (fun r => !(!(r.matchId == x.matchId)))
                = sFix.team_mmrs.filter (fun r => r.matchId == x.matchId) :=
              List.filter_congr (fun a _ => Bool.not_not _)
            have hap := List.filter_append_perm
              (fun r : TeamRow => !(r.matchId == x.matchId)) sFix.team_mmrs
            rwa [hfc] at hap
          exact hp2.trans hp3

theorem delta2_subset (env : RemoteEnv) (s0 : Store) (page : List RemoteMatch)
    (hnodup : (page.map (fun m => m.matchId)).Nodup)
    (hid : "" ∉ page.map (fun m => m.matchId))
    (hinj : StartsInj s0 page) :
    ∀ m ∈ deltaFromPage
        (latestKnownId (processMatches env s0 (deltaFromPage (latestKnownId s0) page)))
        page,
      m ∈ deltaFromPage (latestKnownId s0) page := by
  intro m hm2
  set s1 := processMatches env s0 (deltaFromPage (latestKnownId s0) page) with hs1
  cases hf1 : page.find? (fun x => x.matchId == latestKnownId s0) with
  | none =>
    rw [deltaFromPage_eq_of_none _ _ hf1]
    cases hf2 : page.find? (fun x => x.matchId == latestKnownId s1) with
    | none => rw [deltaFromPage_eq_of_none _ _ hf2] at hm2; exact hm2
    | some old2 =>
      rw [deltaFromPage_eq_of_some _ _ old2 hf2] at hm2
      exact List.mem_of_mem_filter hm2
  | some old1 =>
    have hold1_mem : old1 ∈ page := List.mem_of_find?_eq_some hf1
    have hold1_id : old1.matchId = latestKnownId s0 := by
      simpa using List.find?_some hf1
    cases hA : latestMatch s0.matchesTable with
    | none =>
      exfalso
      have hk1 : latestKnownId s0 = "" := by simp [latestKnownId, hA]
      apply hid
      rw [← hk1, ← hold1_id]
      exact List.mem_map.mpr ⟨old1, hold1_mem, rfl⟩
    | some A =>
      have hk1 : latestKnownId s0 = A.matchId := by simp [latestKnownId, hA]
      have hA_mem : A ∈ s0.matchesTable := latestMatch_mem hA
      have hA_max : ∀ x ∈ s0.matchesTable, x.startTime ≤ A.startTime :=
        latestMatch_isMax hA
      have hdelta1 : deltaFromPage (latestKnownId s0) page
          = page.filter (fun x => old1.startTime < x.startTime) :=
        deltaFromPage_eq_of_some _ _ old1 hf1
      have hA_s1 : A ∈ s1.matchesTable := by
        rw [hs1, hdelta1]
        apply processMatches_row_survives env _ s0 A hA_mem
        intro m' hm'
        have hm'_page : m' ∈ page := List.mem_of_mem_filter hm'
        have hm'_gt : old1.startTime < m'.startTime := by
          simpa using List.of_mem_filter hm'
        intro he
        have heq : m' = old1 :=
          page_id_inj hnodup hm'_page hold1_mem (he.trans (hk1 ▸ hold1_id).symm)
        rw [heq] at hm'_gt
        exact lt_irrefl _ hm'_gt
      have hs1_ne : s1.matchesTable ≠ [] := by
        rw [hs1]
        apply processMatches_ne_nil
        intro hnil
        rw [hnil] at hA_mem
        cases hA_mem
      cases hL : latestMatch s1.matchesTable with
      | none => exact absurd (latestMatch_eq_none_iff.mp hL) hs1_ne
      | some L =>
        have hk2 : latestKnownId s1 = L.matchId := by simp [latestKnownId, hL]
        have hL_mem : L ∈ s1.matchesTable := latestMatch_mem hL
        have hL_max : ∀ x ∈ s1.matchesTable, x.startTime ≤ L.startTime :=
          latestMatch_isMax hL
        have hL_origin : L ∈ s0.matchesTable ∨
            ∃ m2 ∈ deltaFromPage (latestKnownId s0) page, L = rowOfMatch m2 := by
          apply processMatches_matches_origin env _ s0 L
          rw [← hs1]
          exact hL_mem
        have hLs0 : L ∈ s0.matchesTable → L.matchId = A.matchId := by
          intro hmem
          have h1 : L.startTime ≤ A.startTime := hA_max L hmem
          have h2 : A.startTime ≤ L.startTime := hL_max A hA_s1
          have heq : L.startTime = A.startTime := le_antisymm h1 h2
          exact hinj (L.matchId, L.startTime)
            (List.mem_append_left _ (List.mem_map.mpr ⟨L, hmem, rfl⟩))
            (A.matchId, A.startTime)
            (List.mem_append_left _ (List.mem_map.mpr ⟨A, hA_mem, rfl⟩))
            heq
        cases hf2 : page.find? (fun x => x.matchId == latestKnownId s1) with
        | none =>
          exfalso
          have hnone := List.find?_eq_none.mp hf2
          rcases hL_origin with hmem | ⟨m2, hm2d, hrow⟩
          · have hLA := hLs0 hmem
            have hcontra : ¬ ((old1.matchId == latestKnownId s1) = true) := by
              simpa using hnone old1 hold1_mem
            apply hcontra
            rw [hk2]
            exact beq_iff_eq.mpr (by rw [hold1_id, hk1, hLA])
          · have hm2_page : m2 ∈ page := by
              rw [hdelta1] at hm2d
              exact List.mem_of_mem_filter hm2d
            have hcontra : ¬ ((m2.matchId == latestKnownId s1) = true) := by
              simpa using hnone m2 hm2_page
            apply hcontra
            rw [hk2]
            exact beq_iff_eq.mpr (by rw [hrow]; rfl)
        | some old2 =>
          rw [deltaFromPage_eq_of_some _ _ old2 hf2] at hm2
          have hm_page : m ∈ page := List.mem_of_mem_filter hm2
          have hm_gt : old2.startTime < m.startTime := by
            simpa using List.of_mem_filter hm2
          have hold2_mem : old2 ∈ page := List.mem_of_find?_eq_some hf2
          have hold2_id : old2.matchId = latestKnownId s1 := by
            simpa using List.find?_some hf2
          have hle : old1.startTime ≤ old2.startTime := by
            rcases hL_origin with hmem | ⟨m2, hm2d, hrow⟩
            · have hLA := hLs0 hmem
              have heq12 : old2 = old1 :=
                page_id_inj hnodup hold2_mem hold1_mem
                  (by rw [hold2_id, hk2, hLA, ← hk1, hold1_id])
              rw [heq12]
            · have hm2_page : m2 ∈ page := by
                rw [hdelta1] at hm2d
                exact List.mem_of_mem_filter hm2d
              have hm2_gt : old1.startTime < m2.startTime := by
                rw [hdelta1] at hm2d
                simpa using List.of_mem_filter hm2d
              have hold2m : old2 = m2 :=
                page_id_inj hnodup hold2_mem hm2_page
                  (by rw [hold2_id, hk2, hrow]; rfl)
              rw [hold2m]
              exact le_of_lt hm2_gt
          rw [hdelta1]
          exact List.mem_filter.mpr
            ⟨hm_page, by simpa using lt_of_le_of_lt hle hm_gt⟩

theorem processMatches_current (env : RemoteEnv) :
    ∀ (l : List RemoteMatch) (s : Store),
      ((l.map (fun m => m.matchId)).Nodup) →
      (∀ m' ∈ l, get_match_stats (env.stats m'.matchId) ≠ .error ()) →
      ∀ m ∈ l, ∀ st, get_match_stats (env.stats m.matchId) = .ok (some st) →
        CurrentFor env (processMatches env s l) m st := by
  intro l
  induction l with
  | nil => intro s _ _ m hm; cases hm
  | cons x rest ih =>
    intro s hnodup hnoauth m hm st hst
    have hnodup2 : (rest.map (fun m => m.matchId)).Nodup :=
      (List.nodup_cons.mp hnodup).2
    have hxnotin : x.matchId ∉ rest.map (fun m => m.matchId) :=
      (List.nodup_cons.mp hnodup).1
    cases hstx : get_match_stats (env.stats x.matchId) with
    | error e =>
      cases e
      exact absurd hstx (hnoauth x (List.mem_cons_self x rest))
    | ok o =>
      cases o with
      | none =>
        rw [processMatches_cons_none env s x rest hstx]
        rcases List.mem_cons.mp hm with h | h
        · exfalso
          rw [h] at hst
          rw [hst] at hstx
          cases hstx
        · exact ih s hnodup2
            (fun m' hm' => hnoauth m' (List.mem_cons_of_mem x hm')) m h st hst
      | some stx =>
        rw [processMatches_cons_some env s x rest stx hstx]
        rcases List.mem_cons.mp hm with h | h
        · subst h
          rw [hst] at hstx
          injection hstx with h1
          injection h1 with h2
          subst h2
          apply currentFor_processMatches env rest _ m st
          · intro m' hm' he
            exact hxnotin (he ▸ List.mem_map.mpr ⟨m', hm', rfl⟩)
          · exact currentFor_establish env s m st
        · exact ih (afterProcess env s x stx) hnodup2
            (fun m' hm' => hnoauth m' (List.mem_cons_of_mem x hm')) m h st hst

/-- Claim C3: re-running the synchronize pass against an unchanged remote
result set is idempotent: no rows are added, removed or altered in any
table.  Hypotheses: the list call succeeds with a page of pairwise-distinct
match ids none of which is the empty-string sentinel, start times across
the store and the page determine the match id (one player's matches never
share an instant), and the first run was successful (no stats fetch of its
delta raised `InvalidTokenError`).  `Store.Equiv` compares the `matches`,
`stats`, `maps` and `Modes` tables by equality and `team_mmrs` as a
multiset of rows, whose within-table order sqlite does not define. -/
theorem c3_resync_idempotent (env : RemoteEnv) (s0 : Store) (page : List RemoteMatch)
    (hlist : env.list = .ok page)
    (hnodup : (page.map (fun m => m.matchId)).Nodup)
    (hid : "" ∉ page.map (fun m => m.matchId))
    (hinj : StartsInj s0 page)
    (hsucc : ∀ m ∈ get_new_matches (latestKnownId s0) env.list,
      get_match_stats (env.stats m.matchId) ≠ .error ()) :
    Store.Equiv (check_for_new_matches env (check_for_new_matches env s0))
      (check_for_new_matches env s0) := by
  have hget : ∀ s : Store, get_new_matches (latestKnownId s) env.list
      = deltaFromPage (latestKnownId s) page := by
    intro s
    rw [hlist]
    rfl
  have hrun : ∀ s : Store, check_for_new_matches env s
      = processMatches env s (deltaFromPage (latestKnownId s) page) := by
    intro s
    unfold check_for_new_matches
    rw [hget]
  rw [hrun s0, hrun (processMatches env s0 (deltaFromPage (latestKnownId s0) page))]
  apply processMatches_equiv env _ _ _ ⟨rfl, rfl, List.Perm.refl _, rfl, rfl⟩
  intro m hm st hst
  have hm1 : m ∈ deltaFromPage (latestKnownId s0) page :=
    delta2_subset env s0 page hnodup hid hinj m hm
  exact processMatches_current env (deltaFromPage (latestKnownId s0) page) s0
    (nodup_delta_ids _ _ hnodup)
    (fun m2 hm2 => hsucc m2 (by rw [hget]; exact hm2))
    m hm1 st hst

/-- Claim C3 witness: idempotence at a concrete store, page and
environment, with every hypothesis discharged. -/
theorem c3_resync_idempotent_witness :
    ((pageB.map (fun m => m.matchId)).Nodup
      ∧ "" ∉ pageB.map (fun m => m.matchId)
      ∧ StartsInj init_db pageB
      ∧ ∀ m ∈ get_new_matches (latestKnownId init_db) env3.list,
          get_match_stats (env3.stats m.matchId) ≠ .error ())
    ∧ Store.Equiv (check_for_new_matches env3 (check_for_new_matches env3 init_db))
        (check_for_new_matches env3 init_db) := by
  have hnoauth : ∀ m ∈ get_new_matches (latestKnownId init_db) env3.list,
      get_match_stats (env3.stats m.matchId) ≠ Except.error () := by
    intro m _
    simp [env3, get_match_stats]
  refine ⟨⟨by decide, by decide, by simp only [StartsInj]; decide, hnoauth⟩, ?_⟩
  exact c3_resync_idempotent env3 init_db pageB rfl (by decide) (by decide)
    (by simp only [StartsInj]; decide) hnoauth

end HaloBot
